/-
Verification of the dataforge-studio job/streaming/retry core against its
specification.  Shallow embedding of the Python sources:

  * `backend/app/services/jobs.py`        — `JobManager`           (§ JobStore)
  * `backend/app/utils/retry.py`          — `exponential_backoff_retry`
  * `backend/app/core/streaming.py`       — `EventStream`
  * `backend/app/agents/schema_agent.py`  — `SchemaAgent._should_retry`
  * `backend/app/services/generation/structured.py` — `StructuredDataGenerator`
  * `backend/app/api/routes_generation.py`— `list_jobs` artifact reconciliation

Conventions: wall-clock instants (`datetime.utcnow()`) are passed explicitly
as rational timestamps; Python floats in `[0,1]` are modelled as `ℚ`;
nondeterminism (`random`, `Faker`) is parametrised by oracle functions;
logging and event publication that do not touch the modelled state are
elided with a note at the definition.
-/
import Mathlib

namespace DataForge

/-! ## JobManager (`backend/app/services/jobs.py`)

`JobStatus` mirrors the five-state enum referenced from
`app/models/responses.py` (QUEUED/RUNNING/SUCCEEDED/FAILED/CANCELLED).
A job record is the dict created by `JobManager.create_job`; the `summary`
payload is an arbitrary nested mapping in Python, modelled here by a type
parameter `σ` since `jobs.py` never inspects it. -/

/-- Generic association-list lookup (Python `dict.get` / `in` test). -/
def alookup {β : Type} : List (String × β) → String → Option β
  | [], _ => none
  | p :: rest, id => if p.1 = id then some p.2 else alookup rest id

/-- Generic association-list in-place value update (identity when absent). -/
def amodify {β : Type} (m : List (String × β)) (id : String) (f : β → β) :
    List (String × β) :=
  m.map fun p => if p.1 = id then (p.1, f p.2) else p

/-- Generic association-list key deletion (Python `del d[k]`). -/
def aremove {β : Type} (m : List (String × β)) (id : String) :
    List (String × β) :=
  m.filter fun p => decide (p.1 ≠ id)

inductive JobStatus where
  | queued
  | running
  | succeeded
  | failed
  | cancelled
deriving DecidableEq, Repr

def JobStatus.isTerminal : JobStatus → Bool
  | .succeeded => true
  | .failed => true
  | .cancelled => true
  | _ => false

structure Job (σ : Type) where
  status : JobStatus
  created_at : ℚ
  started_at : Option ℚ
  completed_at : Option ℚ
  progress : ℚ
  message : String
  error : Option String
  summary : Option σ
deriving DecidableEq, Repr

/-- The `JobManager._jobs` dict: an association list keyed by job id.
(Python dict keys are unique; theorems that need this take a `Nodup`
hypothesis on the keys.)  The `_job_tasks` dict only stores asyncio task
handles and never feeds back into `_jobs`, so it is not modelled. -/
abbrev JobMap (σ : Type) := List (String × Job σ)

def lookupJob {σ : Type} (m : JobMap σ) (id : String) : Option (Job σ) :=
  alookup m id

/-- `self._jobs[job_id].update({...})` guarded by `if job_id in self._jobs`:
apply `f` to every entry whose key is `id` (identity when the id is absent,
matching the guarded no-op). -/
def modifyJob {σ : Type} (m : JobMap σ) (id : String) (f : Job σ → Job σ) :
    JobMap σ :=
  amodify m id f

/-- `JobManager.create_job` (jobs.py:21-42): insert a fresh Queued record.
The freshly generated uuid-based id is passed in explicitly. -/
def create_job {σ : Type} (m : JobMap σ) (id : String) (now : ℚ) : JobMap σ :=
  m ++ [(id, { status := .queued, created_at := now, started_at := none,
               completed_at := none, progress := 0, message := "Job queued",
               error := none, summary := none })]

/-- `JobManager.start_job` (jobs.py:56-73).  Note the source guards only on
presence of the id (`if job_id in self._jobs`); there is no status check.
The event publication (`_publish_update`) reads but never writes `_jobs`. -/
def start_job {σ : Type} (m : JobMap σ) (id : String) (now : ℚ) : JobMap σ :=
  modifyJob m id fun j =>
    { j with status := .running, started_at := some now,
             message := "Job started" }

/-- `JobManager.update_progress` (jobs.py:75-90): clamp to `[0,1]` via
`min(1.0, max(0.0, progress))`; `if message:` overwrites the message only
when it is truthy, i.e. neither `None` nor the empty string. -/
def update_progress {σ : Type} (m : JobMap σ) (id : String) (progress : ℚ)
    (message : Option String) : JobMap σ :=
  modifyJob m id fun j =>
    { j with progress := min 1 (max 0 progress),
             message := match message with
               | some s => if s = "" then j.message else s
               | none => j.message }

/-- `JobManager.complete_job` (jobs.py:92-112).  No status check either. -/
def complete_job {σ : Type} (m : JobMap σ) (id : String) (summary : Option σ)
    (now : ℚ) : JobMap σ :=
  modifyJob m id fun j =>
    { j with status := .succeeded, completed_at := some now, progress := 1,
             message := "Job completed successfully", summary := summary }

/-- `JobManager.fail_job` (jobs.py:114-133): sets status, completed_at,
message and error; all other fields are inherited unchanged. -/
def fail_job {σ : Type} (m : JobMap σ) (id : String) (error : String)
    (now : ℚ) : JobMap σ :=
  modifyJob m id fun j =>
    { j with status := .failed, completed_at := some now,
             message := "Job failed", error := some error }

/-- `JobManager.cancel_job` (jobs.py:135-171): the only transition that
refuses to act on a terminal job.  The `_job_tasks` handle cancellation does
not touch `_jobs` and is elided. -/
def cancel_job {σ : Type} (m : JobMap σ) (id : String) (now : ℚ) :
    Bool × JobMap σ :=
  match lookupJob m id with
  | none => (false, m)
  | some j =>
    if j.status.isTerminal then (false, m)
    else (true, modifyJob m id fun j =>
      { j with status := .cancelled, completed_at := some now,
               message := "Job cancelled" })

/-- `(now - completed_at).total_seconds() > max_age_seconds` for a job with
a set `completed_at`; `job.get("completed_at")` is falsy when `None`. -/
def removable {σ : Type} (maxAge now : ℚ) (j : Job σ) : Bool :=
  match j.completed_at with
  | some t => decide (now - t > maxAge)
  | none => false

/-- `JobManager.cleanup_old_jobs` (jobs.py:211-234): collect the ids of the
removable jobs, delete them, return how many were collected. -/
def cleanup_old_jobs {σ : Type} (m : JobMap σ) (maxAge now : ℚ) :
    Nat × JobMap σ :=
  let toRemove := (m.filter fun p => removable maxAge now p.2).map Prod.fst
  (toRemove.length, m.filter fun p => decide (p.1 ∉ toRemove))

/-! ## Retry executor (`backend/app/utils/retry.py`)

`exponential_backoff_retry` runs `func` up to `max_retries + 1` times.  The
fallible async operation is modelled as `op : Nat → Except String α` giving
the outcome of the i-th invocation (`String` is `str(e)`, the error
message); the default `retry_exceptions = (Exception,)` catches every
error, modelled by `Except.error` always being caught.  Backoff delay,
jitter and logging (lines 60-76) do not affect the returned value or the
invocation count and are elided. -/

/-- ASCII lowercasing of one character (`str.lower()`; the four throttling
keywords are ASCII). -/
def lowerChar (c : Char) : Char :=
  if 65 ≤ c.toNat ∧ c.toNat ≤ 90 then Char.ofNat (c.toNat + 32) else c

/-- `error_msg.lower()` on the character list. -/
def toLowerStr (s : String) : List Char := s.toList.map lowerChar

/-- Does `ks` occur at the head of the text? -/
def leadMatch : List Char → List Char → Bool
  | [], _ => true
  | _ :: _, [] => false
  | k :: ks, c :: cs => decide (k = c) && leadMatch ks cs

/-- Does `ks` occur anywhere in the text?  (`keyword in msg`.) -/
def subMatch (ks : List Char) : List Char → Bool
  | [] => leadMatch ks []
  | c :: cs => leadMatch ks (c :: cs) || subMatch ks cs

/-- `keyword in error_msg.lower()`: substring containment test. -/
def containsSub (s : List Char) (k : String) : Bool := subMatch k.toList s

/-- Lines 50-54 of retry.py: classify the error message as a
rate-limit/throttling signature.  In the source this flag selects which
log message is emitted on lines 69-74; it is *not* consulted by the retry
control flow. -/
def is_throttling (msg : String) : Bool :=
  ["throttl", "rate limit", "too many requests", "slowdown"].any fun k =>
    containsSub (toLowerStr msg) k

/-- The `for attempt in range(max_retries + 1)` loop, with
`remaining = max_retries - attempt`: on success return; on failure re-raise
when `attempt >= max_retries` (i.e. `remaining = 0`), otherwise sleep and
retry.  Returns the outcome together with the number of invocations of
`op` performed. -/
def retryAux {α : Type} (op : Nat → Except String α) :
    Nat → Nat → Except String α × Nat
  | attempt, remaining =>
    match op attempt, remaining with
    | .ok v, _ => (.ok v, attempt + 1)
    | .error e, 0 => (.error e, attempt + 1)
    | .error _, r + 1 => retryAux op (attempt + 1) r

/-- `exponential_backoff_retry(func, max_retries, ...)` (retry.py:14-79). -/
def exponential_backoff_retry {α : Type} (op : Nat → Except String α)
    (maxRetries : Nat) : Except String α × Nat :=
  retryAux op 0 maxRetries

/-! ## Event streaming (`backend/app/core/streaming.py`)

`EventStream` keeps `_subscribers : Dict[str, list[Queue]]`.  Queue objects
outlive their registry entry (the subscriber generator holds a reference),
so the model stores every queue ever created in an indexed pool and the
registry maps stream ids to queue indices.  A queue is its FIFO buffer of
pending items, `none` being the end-of-stream sentinel. -/

structure EventStream (ε : Type) where
  queues : List (List (Option ε))
  subscribers : List (String × List Nat)
deriving Repr

def EventStream.empty {ε : Type} : EventStream ε := ⟨[], []⟩

/-- Append an item to the queue at index `qid`. -/
def appendAt {ε : Type} : List (List (Option ε)) → Nat → Option ε →
    List (List (Option ε))
  | [], _, _ => []
  | q :: rest, 0, item => (q ++ [item]) :: rest
  | q :: rest, n + 1, item => q :: appendAt rest n item

/-- `EventStream.subscribe` registration part (streaming.py:61-66): create a
fresh queue and append it to the stream's subscriber list (creating the
entry if missing).  Returns the new queue's index. -/
def subscribe {ε : Type} (s : EventStream ε) (id : String) :
    EventStream ε × Nat :=
  let qid := s.queues.length
  let queues := s.queues ++ [[]]
  let subs :=
    match alookup s.subscribers id with
    | some _ => amodify s.subscribers id fun qs => qs ++ [qid]
    | none => s.subscribers ++ [(id, [qid])]
  (⟨queues, subs⟩, qid)

/-- `EventStream.publish` (streaming.py:89-108): put the event on every
registered queue of the stream; return the recipient count (0 and no state
change when the stream has no registry entry). -/
def publish {ε : Type} (s : EventStream ε) (id : String) (e : ε) :
    EventStream ε × Nat :=
  match alookup s.subscribers id with
  | none => (s, 0)
  | some qids =>
    ({ s with
        queues := qids.foldl (fun acc qid => appendAt acc qid (some e))
          s.queues },
      qids.length)

/-- `EventStream.close_stream` (streaming.py:110-125): put the `None`
sentinel on every registered queue, then delete the registry entry. -/
def close_stream {ε : Type} (s : EventStream ε) (id : String) :
    EventStream ε :=
  match alookup s.subscribers id with
  | none => s
  | some qids =>
    { queues := qids.foldl (fun acc qid => appendAt acc qid none) s.queues,
      subscribers := aremove s.subscribers id }

/-- An event as seen by one subscriber: the synthetic initial "connected"
event (streaming.py:70-73) or a published payload. -/
inductive SubEvent (ε : Type) where
  | connect
  | payload (e : ε)
deriving DecidableEq, Repr

/-- The consuming `while True` loop of `subscribe` (streaming.py:76-80)
applied to the items currently pending on the queue: events yielded before
the loop either breaks (on the `None` sentinel — second component `true`)
or blocks awaiting a later item (second component `false`). -/
def consumeQ {ε : Type} : List (Option ε) → List ε × Bool
  | [] => ([], false)
  | none :: _ => ([], true)
  | some e :: rest =>
    let (l, b) := consumeQ rest
    (e :: l, b)

/-- Everything the subscriber generator yields from its queue's pending
items, including the initial "connected" event, paired with whether the
generator has terminated. -/
def subscriberView {ε : Type} (pending : List (Option ε)) :
    List (SubEvent ε) × Bool :=
  let (l, b) := consumeQ pending
  (.connect :: l.map .payload, b)

/-! ## Schema-agent redraft decision (`backend/app/agents/schema_agent.py`)

The LangGraph wiring (lines 140-153) routes
`analyze → draft → validate → _should_retry → {draft | finalize}`.
Only the fields `_should_retry` reads or writes are modelled; the LLM-driven
node bodies are external and enter the model through the sequence of
validation outcomes a run produces. -/

structure ValidationResult where
  valid : Bool
deriving DecidableEq, Repr

structure AgentState where
  error : Option String
  validation_result : Option ValidationResult
  iteration : Nat
deriving DecidableEq, Repr

inductive Route where
  | retry
  | finalize
deriving DecidableEq, Repr

/-- `SchemaAgent._should_retry` (schema_agent.py:329-346).  The Python
`state.get("error")` truthiness is modelled by presence (every assignment
to `state["error"]` in the source is a nonempty f-string); `not validation`
by the `Option`; `state["iteration"] = iteration + 1` mutates the state the
router passes on. -/
def should_retry (s : AgentState) : Route × AgentState :=
  if s.error.isSome then (.finalize, s)
  else
    match s.validation_result with
    | none => (.finalize, s)
    | some v =>
      if v.valid = false ∧ s.iteration < 3 then
        (.retry, { s with iteration := s.iteration + 1 })
      else (.finalize, s)

/-- The validate/redraft loop of the compiled graph: each list element is
the `valid` outcome the `_validate_node` run stores (no pipeline error
occurring).  The `[]` case is unreachable for traces long enough to cover
the run (the iteration cap bounds redrafts at 3). -/
def validateLoop : List Bool → AgentState → AgentState × Route
  | [], s => (s, .finalize)
  | v :: rest, s =>
    let s1 := { s with validation_result := some ⟨v⟩ }
    match should_retry s1 with
    | (.retry, s2) => validateLoop rest s2
    | (.finalize, s2) => (s2, .finalize)

/-- A run of the graph from the initial state (`iteration = 0`,
schema_agent.py:456) through draft/validate cycles with the given
validation outcomes, ending at the node `_should_retry` routes to. -/
def runPipeline (outcomes : List Bool) : AgentState × Route :=
  validateLoop outcomes { error := none, validation_result := none,
                          iteration := 0 }

/-! ## Structured generation (`backend/app/services/generation/structured.py`)

`StructuredDataGenerator.generate_from_schema` generates tables in declared
order, threading `pk_values : Dict[str, List[str]]` from each table to the
next; `_generate_table` draws primary-key values, foreign-key values
(uniformly from the referenced table's recorded pool) and everything else.
Randomness (`random`, `Faker`) is parametrised by `GenOracle`; missing/falsy
string fields are modelled as `""`.  CSV writing, the JSON preview, and
progress reporting are elided (they do not feed back into the values). -/

structure ColumnCfg where
  name : String
deriving DecidableEq, Repr

structure FKCfg where
  column : String
  ref_table : String
  ref_column : String
deriving DecidableEq, Repr

/-- `table.get("primary_key")`: a string, a list of strings, or absent. -/
inductive PKDecl where
  | strDecl (s : String)
  | listDecl (l : List String)
  | noneDecl
deriving DecidableEq, Repr

structure Table where
  name : String
  rows : Nat
  columns : List ColumnCfg
  primary_key : PKDecl
  foreign_keys : List FKCfg
deriving DecidableEq, Repr

/-- `settings.MAX_ROWS_PER_TABLE` (config.py:72). -/
def MAX_ROWS_PER_TABLE : Nat := 1000000

/-- `rows = max(1, min(rows, settings.MAX_ROWS_PER_TABLE))`
(structured.py:144). -/
def clampRows (n : Nat) : Nat := max 1 (min n MAX_ROWS_PER_TABLE)

/-- structured.py:150-156 and the `if pk_field` truthiness guards: the
effective primary-key field, `none` when absent or falsy. -/
def effPk (decl : PKDecl) : Option String :=
  match decl with
  | .listDecl (x :: _) => if x = "" then none else some x
  | .listDecl [] => none
  | .strDecl s => if s = "" then none else some s
  | .noneDecl => none

/-- structured.py:147-148: keep columns with a truthy name. -/
def colNames (cols : List ColumnCfg) : List String :=
  (cols.map ColumnCfg.name).filter fun n => decide (n ≠ "")

/-- structured.py:158-159: prepend the primary key when not declared as a
column. -/
def tableColumns (t : Table) : List String :=
  let names := colNames t.columns
  match effPk t.primary_key with
  | some pk => if pk ∈ names then names else pk :: names
  | none => names

/-- Python dict assignment `d[k] = v`: replace or append. -/
def ainsert {β : Type} (m : List (String × β)) (id : String) (v : β) :
    List (String × β) :=
  if (alookup m id).isSome then amodify m id fun _ => v else m ++ [(id, v)]

/-- structured.py:162-168: build `fk_pools` from the table's foreign-key
config and the pools recorded for previously generated tables. -/
def buildPools (fks : List FKCfg) (pkValues : List (String × List String)) :
    List (String × List String) :=
  fks.foldl
    (fun acc fk =>
      match alookup pkValues fk.ref_table with
      | some pool =>
        if fk.ref_table ≠ "" ∧ fk.ref_column ≠ "" then
          ainsert acc fk.column pool
        else acc
      | none => acc)
    []

/-- External randomness: `pkVal` models the fresh uuid drawn for the
primary-key column of row `i` (structured.py:207); `choice` models the
index `random.choice` picks (structured.py:211); `fake` models
`_fake_value` / the derived timeseries values for all other columns
(structured.py:214-225). -/
structure GenOracle where
  pkVal : String → Nat → String
  choice : String → Nat → String → Nat
  fake : String → Nat → String → String

/-- The per-column branch of the row loop (structured.py:205-225):
primary key first, then foreign-key pool draw, else an oracle value.
`random.choice` on a pool of length `L` returns the element at an index
in `[0, L)`, modelled by reducing the oracle's pick modulo `L` (on an
empty pool the source raises `IndexError`; the `getD` default is never
relied on by the theorems, whose pools are nonempty). -/
def genValue (o : GenOracle) (tname : String) (pk : Option String)
    (pools : List (String × List String)) (i : Nat) (col : String) : String :=
  if pk = some col then o.pkVal tname i
  else
    match alookup pools col with
    | some pool => pool.getD (o.choice tname i col % pool.length) ""
    | none => o.fake tname i col

/-- The CSV rows and recorded pool of `StructuredDataGenerator._generate_table`
(structured.py:113-264). -/
structure TableData where
  name : String
  cols : List String
  rows : List (List String)
deriving DecidableEq, Repr

/-- The `generated_pk_values` list accumulated by the row loop: one fresh
primary-key value per row per occurrence of the primary-key column
(structured.py:206-208). -/
def tablePks (o : GenOracle) (t : Table) : List String :=
  (List.range (clampRows t.rows)).flatMap fun i =>
    (tableColumns t).filterMap fun c =>
      if effPk t.primary_key = some c then some (o.pkVal t.name i) else none

/-- The CSV body written by the row loop (structured.py:195-229): one row
per index, one value per column. -/
def tableRows (o : GenOracle) (t : Table)
    (pools : List (String × List String)) : List (List String) :=
  (List.range (clampRows t.rows)).map fun i =>
    (tableColumns t).map (genValue o t.name (effPk t.primary_key) pools i)

/-- `_generate_table`: clamp the row count, fix the column list, build the
FK pools from previously recorded tables, generate each row, and (when any
primary-key values were drawn) record them under the table's name
(structured.py:250-252). -/
def generate_table (o : GenOracle) (t : Table)
    (pkValues : List (String × List String)) :
    TableData × List (String × List String) :=
  let pools := buildPools t.foreign_keys pkValues
  ({ name := t.name, cols := tableColumns t, rows := tableRows o t pools },
   if tablePks o t = [] then pkValues
   else ainsert pkValues t.name (tablePks o t))

/-- `generate_from_schema` (structured.py:44-111): generate the declared
tables in order, threading the recorded primary-key pools. -/
def generate_from_schema (o : GenOracle) (tables : List Table) :
    List TableData × List (String × List String) :=
  tables.foldl
    (fun acc t =>
      let r := generate_table o t acc.2
      (acc.1 ++ [r.1], r.2))
    ([], [])

/-! ## Artifact reconciliation (`backend/app/api/routes_generation.py`)

The `list_jobs` handler (lines 199-274): for a job directory having a
schema descriptor but no in-memory record, rebuild a Succeeded job view
from the CSV files.  A CSV file enters the model as its stem, the list of
lines `readlines()` returns, and its byte size; the schema descriptor's
mtime enters as a rational timestamp. -/

structure CsvFile where
  stem : String
  lines : List String
  size_bytes : Nat
deriving DecidableEq, Repr

/-- routes_generation.py:220-225: `rows = len(lines) - 1`, clamped to 0
when negative. -/
def fileRows (lines : List String) : Int :=
  let r : Int := (lines.length : Int) - 1
  if r < 0 then 0 else r

/-- A character Python's `str.strip()` removes at the ends of a line. -/
def isSpaceCh (ch : Char) : Bool :=
  decide (ch = ' ') || decide (ch = '\t') || decide (ch = '\n') ||
    decide (ch = '\r')

/-- `line.strip()` on the character list. -/
def stripChars (l : List Char) : List Char :=
  ((l.dropWhile isSpaceCh).reverse.dropWhile isSpaceCh).reverse

/-- `line.split(",")`: comma-separated fields, empty fields kept;
`"".split(",") == [""]`. -/
def splitComma : List Char → List (List Char)
  | [] => [[]]
  | ch :: cs =>
    if ch = ',' then [] :: splitComma cs
    else
      match splitComma cs with
      | [] => [[ch]]
      | fld :: rest => (ch :: fld) :: rest

/-- routes_generation.py:227-231: field count of the stripped header line
(`len(lines[0].strip().split(","))`), 0 when the file has no lines. -/
def fileColumns (lines : List String) : Nat :=
  match lines with
  | [] => 0
  | h :: _ => (splitComma (stripChars h.toList)).length

structure TableSummary where
  name : String
  rows : Int
  columns : Nat
  size_bytes : Nat
deriving DecidableEq, Repr

structure JobSummary where
  tables : List TableSummary
  total_rows : Int
  total_columns : Nat
deriving DecidableEq, Repr

structure JobView where
  job_id : String
  status : JobStatus
  created_at : ℚ
  started_at : Option ℚ
  completed_at : Option ℚ
  progress : ℚ
  message : String
  error : Option String
  summary : JobSummary
deriving DecidableEq, Repr

/-- The reconstruction branch of `list_jobs` (routes_generation.py:203-274):
skip the file whose stem is `"schema"`, count rows and header fields per
remaining file, accumulate totals, and stamp the schema descriptor's
mtime as both creation and completion time. -/
def reconstructJob (jobId : String) (csvFiles : List CsvFile) (mtime : ℚ) :
    JobView :=
  let tables := (csvFiles.filter fun f => decide (f.stem ≠ "schema")).map
    fun f =>
      { name := f.stem, rows := fileRows f.lines,
        columns := fileColumns f.lines, size_bytes := f.size_bytes }
  { job_id := jobId, status := .succeeded, created_at := mtime,
    started_at := none, completed_at := some mtime, progress := 1,
    message := "Job completed successfully", error := none,
    summary := { tables := tables,
                 total_rows := (tables.map TableSummary.rows).sum,
                 total_columns := (tables.map TableSummary.columns).sum } }

/-! ## Concrete fixtures used by counterexamples and witnesses -/

/-- A job that has already succeeded (as left by `complete_job`). -/
def jobDone : Job Unit :=
  { status := .succeeded, created_at := 0, started_at := some 0,
    completed_at := some 1, progress := 1,
    message := "Job completed successfully", error := none,
    summary := some () }

/-- A `_jobs` map holding the single terminal job `jobDone`. -/
def mDone : JobMap Unit := [("job_a", jobDone)]

/-- An operation that always fails with a message carrying none of the
rate-limit/throttling signatures. -/
def opBoom : Nat → Except String Unit := fun _ => .error "boom"

/-- An operation that always fails with a throttling-classified message. -/
def opThrottled : Nat → Except String Unit := fun _ => .error "Throttled"

/-- A stream trace: subscribe to `"job_1"`, publish one event, close the
stream.  The original subscriber's queue now holds the event and the
sentinel; the registry entry for `"job_1"` is gone. -/
def c3AfterClose : EventStream Nat :=
  close_stream
    (publish (subscribe (EventStream.empty (ε := Nat)) "job_1").1 "job_1" 7).1
    "job_1"

/-- A late subscription made after `c3AfterClose` closed the stream. -/
def c3Late : EventStream Nat × Nat := subscribe c3AfterClose "job_1"

/-- A cleanup fixture: one job completed 50s ago, one completed 5s ago,
one still running (`completed_at = None`), clock at `now = 100`. -/
def jOld : Job Unit :=
  { jobDone with completed_at := some 50 }

def jRecent : Job Unit :=
  { jobDone with completed_at := some 95 }

def jRun : Job Unit :=
  { status := .running, created_at := 0, started_at := some 0,
    completed_at := none, progress := 1/2, message := "Job started",
    error := none, summary := none }

def mAges : JobMap Unit := [("old", jOld), ("recent", jRecent), ("run", jRun)]

/-- A parent table with a primary key (one row). -/
def t1C : Table :=
  { name := "users", rows := 1, columns := [⟨"id"⟩],
    primary_key := .strDecl "id", foreign_keys := [] }

/-- A child table whose `user_id` column references `users.id`. -/
def t2C : Table :=
  { name := "orders", rows := 1, columns := [⟨"oid"⟩, ⟨"user_id"⟩],
    primary_key := .strDecl "oid",
    foreign_keys := [⟨"user_id", "users", "id"⟩] }

/-- A concrete deterministic oracle standing in for `random`/`Faker`. -/
def oC7 : GenOracle :=
  { pkVal := fun t _ => t ++ "#pk", choice := fun _ _ _ => 0,
    fake := fun _ _ c => c ++ "?" }

/-- Two on-disk CSV files: one data table (header + 2 rows, 2 header
fields) and the skipped `schema` stem. -/
def filesC8 : List CsvFile :=
  [{ stem := "users", lines := ["id,email", "1,a@b", "2,c@d"],
     size_bytes := 30 },
   { stem := "schema", lines := ["x"], size_bytes := 5 }]

/-! ## Helper lemmas on the association-list primitives -/

theorem alookup_amodify {β : Type} (m : List (String × β)) (id : String)
    (f : β → β) : alookup (amodify m id f) id = (alookup m id).map f := by
  induction m with
  | nil => rfl
  | cons p rest ih =>
    by_cases h : p.1 = id
    · simp [amodify, alookup, h]
    · simpa [amodify, alookup, h] using ih

theorem alookup_ainsert {β : Type} (m : List (String × β)) (id : String)
    (v : β) : alookup (ainsert m id v) id = some v := by
  unfold ainsert
  by_cases h : (alookup m id).isSome
  · rw [if_pos h, alookup_amodify]
    obtain ⟨w, hw⟩ := Option.isSome_iff_exists.mp h
    rw [hw]; rfl
  · rw [if_neg h]
    induction m with
    | nil => simp [alookup]
    | cons p rest ih =>
      by_cases hp : p.1 = id
      · exact absurd (by simp [alookup, hp]) h
      · simp only [List.cons_append, alookup, hp, if_false]
        exact ih (by simpa [alookup, hp] using h)

/-! ## C1 — terminal-state immutability -/

/-- **C1, counterexample.**  The claim says no `start_job` call changes the
status of a Succeeded job; but `JobManager.start_job` checks only that the
id exists (jobs.py:63) and unconditionally sets status to Running. -/
theorem C1_counterexample :
    lookupJob mDone "job_a" = some jobDone ∧
    jobDone.status = .succeeded ∧
    (lookupJob (start_job mDone "job_a" 2) "job_a").map Job.status =
      some .running ∧
    JobStatus.running ≠ JobStatus.succeeded := by
  refine ⟨by decide, by decide, by decide, by decide⟩

/-- **C1, amended.**  Of the five transition operations only `cancel_job`
is guarded by the terminal-status check (jobs.py:149-150): on a terminal
job it returns `False` and leaves the map unchanged, while `start_job`,
`update_progress`, `complete_job` and `fail_job` apply their updates to a
terminal job exactly as to a live one. -/
theorem C1_amended {σ : Type} (m : JobMap σ) (id : String) (j : Job σ)
    (now p : ℚ) (msg : Option String) (e : String) (sm : Option σ)
    (hj : lookupJob m id = some j) (ht : j.status.isTerminal = true) :
    cancel_job m id now = (false, m) ∧
    (lookupJob (start_job m id now) id).map Job.status = some .running ∧
    (lookupJob (update_progress m id p msg) id).map Job.progress =
      some (min 1 (max 0 p)) ∧
    (lookupJob (complete_job m id sm now) id).map Job.status =
      some .succeeded ∧
    (lookupJob (fail_job m id e now) id).map Job.status = some .failed := by
  refine ⟨?_, ?_, ?_, ?_, ?_⟩
  · unfold cancel_job
    rw [hj]
    simp [ht]
  · unfold start_job modifyJob lookupJob at *
    rw [alookup_amodify, hj]
    rfl
  · unfold update_progress modifyJob lookupJob at *
    rw [alookup_amodify, hj]
    rfl
  · unfold complete_job modifyJob lookupJob at *
    rw [alookup_amodify, hj]
    rfl
  · unfold fail_job modifyJob lookupJob at *
    rw [alookup_amodify, hj]
    rfl

/-- **C1, witness** for the amended statement, at the concrete terminal
map `mDone`. -/
theorem C1_witness :
    cancel_job mDone "job_a" 2 = (false, mDone) ∧
    (lookupJob (start_job mDone "job_a" 2) "job_a").map Job.status =
      some .running ∧
    (lookupJob (update_progress mDone "job_a" (1/2) none) "job_a").map
      Job.progress = some (min 1 (max 0 (1/2))) ∧
    (lookupJob (complete_job mDone "job_a" none 2) "job_a").map Job.status =
      some .succeeded ∧
    (lookupJob (fail_job mDone "job_a" "x" 2) "job_a").map Job.status =
      some .failed :=
  C1_amended mDone "job_a" jobDone 2 (1/2) none "x" none (by decide)
    (by decide)

/-! ## C9 — frame condition of `fail_job` -/

/-- **C9.**  `JobManager.fail_job` on an existing job sets exactly status,
`completed_at`, message and error; the record-update form of the right-hand
side keeps `progress`, `started_at`, `created_at` and `summary` at their
previous values — in particular progress is neither forced to 1.0 nor
reset. -/
theorem C9_fail_frame {σ : Type} (m : JobMap σ) (id : String) (j : Job σ)
    (e : String) (now : ℚ) (hj : lookupJob m id = some j) :
    lookupJob (fail_job m id e now) id =
      some { j with status := .failed, completed_at := some now,
                    message := "Job failed", error := some e } := by
  unfold fail_job modifyJob lookupJob at *
  rw [alookup_amodify, hj]
  rfl

/-- **C9, witness** at the concrete map `mDone` (whose job has
`progress = 1`, `started_at = some 0`, `summary = some ()`): all of these
survive `fail_job` unchanged. -/
theorem C9_witness :
    lookupJob (fail_job mDone "job_a" "boom" 5) "job_a" =
      some { jobDone with status := .failed, completed_at := some 5,
                          message := "Job failed", error := some "boom" } :=
  C9_fail_frame mDone "job_a" jobDone "boom" 5 (by decide)

/-! ## C10 — empty-string message treated as absent -/

/-- **C10.**  `update_progress(id, p, "")` is the same state transformation
as omitting the message (`if message:` is false both for `None` and for
`""`, jobs.py:86): the clamped progress is stored and the stored message is
untouched. -/
theorem C10_empty_message {σ : Type} (m : JobMap σ) (id : String) (p : ℚ) :
    update_progress m id p (some "") = update_progress m id p none ∧
    ∀ j : Job σ, lookupJob m id = some j →
      lookupJob (update_progress m id p (some "")) id =
        some { j with progress := min 1 (max 0 p) } := by
  constructor
  · rfl
  · intro j hj
    unfold update_progress modifyJob lookupJob at *
    rw [alookup_amodify, hj]
    rfl

/-- **C10, witness** at the concrete map `mDone`. -/
theorem C10_witness :
    update_progress mDone "job_a" (3/4) (some "") =
      update_progress mDone "job_a" (3/4) none ∧
    lookupJob (update_progress mDone "job_a" (3/4) (some "")) "job_a" =
      some { jobDone with progress := min 1 (max 0 (3/4)) } :=
  ⟨(C10_empty_message mDone "job_a" (3/4)).1,
   (C10_empty_message mDone "job_a" (3/4)).2 jobDone (by decide)⟩

/-! ## C6 — cleanup selectivity -/

theorem alookup_filter_of_none {β : Type} (m : List (String × β))
    (g : String × β → Bool) (id : String) (h : alookup m id = none) :
    alookup (m.filter g) id = none := by
  induction m with
  | nil => rfl
  | cons p rest ih =>
    by_cases hp : p.1 = id
    · simp [alookup, hp] at h
    · have h' : alookup rest id = none := by simpa [alookup, hp] using h
      by_cases hg : g p
      · simpa [List.filter_cons, hg, alookup, hp] using ih h'
      · simpa [List.filter_cons, hg] using ih h'

theorem mem_keys_of_alookup_some {β : Type} {m : List (String × β)}
    {id : String} {v : β} (h : alookup m id = some v) :
    id ∈ m.map Prod.fst := by
  induction m with
  | nil => simp [alookup] at h
  | cons p rest ih =>
    by_cases hp : p.1 = id
    · simp [hp]
    · exact List.mem_cons_of_mem _ (ih (by simpa [alookup, hp] using h))

theorem alookup_filter_nodup {β : Type} (m : List (String × β))
    (g : String × β → Bool) (id : String) (v : β)
    (hnd : (m.map Prod.fst).Nodup) (h : alookup m id = some v) :
    alookup (m.filter g) id = if g (id, v) then some v else none := by
  induction m with
  | nil => simp [alookup] at h
  | cons p rest ih =>
    have hnd2 : p.1 ∉ rest.map Prod.fst ∧ (rest.map Prod.fst).Nodup := by
      rw [List.map_cons, List.nodup_cons] at hnd
      exact hnd
    have hnd' := hnd2.2
    have hnotin := hnd2.1
    by_cases hp : p.1 = id
    · have hv : p.2 = v := by simpa [alookup, hp] using h
      have hnone : alookup rest id = none := by
        rcases hx : alookup rest id with _ | w
        · rfl
        · exact absurd (hp ▸ mem_keys_of_alookup_some hx) hnotin
      have hpv : (id, v) = p := by
        rcases p with ⟨p1, p2⟩
        simp only at hp hv
        rw [hp, hv]
      by_cases hg : g (id, v)
      · rw [if_pos hg]
        have hgp : g p = true := hpv ▸ hg
        simp [List.filter_cons, hgp, alookup, hp, hv]
      · rw [if_neg hg]
        have hgp : g p = false := by
          rw [← hpv]
          exact (Bool.not_eq_true _).mp hg
        simpa [List.filter_cons, hgp] using
          alookup_filter_of_none rest g id hnone
    · have h' : alookup rest id = some v := by simpa [alookup, hp] using h
      have := ih hnd' h'
      by_cases hg : g p
      · simpa [List.filter_cons, hg, alookup, hp] using this
      · simpa [List.filter_cons, hg] using this

theorem filter_length_partition {β : Type} (l : List β) (f : β → Bool) :
    (l.filter f).length + (l.filter fun x => !f x).length = l.length := by
  induction l with
  | nil => rfl
  | cons x rest ih =>
    by_cases hx : f x
    · simp [List.filter_cons, hx]; omega
    · simp [List.filter_cons, hx]; omega

/-- Under unique keys, the two-phase collect-then-delete of
`cleanup_old_jobs` is a partition of the map by `removable`. -/
theorem cleanup_eq_partition {σ : Type} (m : JobMap σ) (maxAge now : ℚ)
    (hnd : (m.map Prod.fst).Nodup) :
    cleanup_old_jobs m maxAge now =
      ((m.filter fun p => removable maxAge now p.2).length,
       m.filter fun p => !removable maxAge now p.2) := by
  unfold cleanup_old_jobs
  refine Prod.ext (by simp) ?_
  simp only
  refine List.filter_congr ?_
  intro p hp
  have hiff : (p.1 ∈ ((m.filter fun q => removable maxAge now q.2).map
      Prod.fst)) ↔ removable maxAge now p.2 = true := by
    constructor
    · intro hmem
      obtain ⟨q, hq, hq1⟩ := List.mem_map.mp hmem
      obtain ⟨hqm, hqr⟩ := List.mem_filter.mp hq
      have : q = p := List.inj_on_of_nodup_map hnd hqm hp hq1
      exact this ▸ hqr
    · intro hr
      exact List.mem_map.mpr ⟨p, List.mem_filter.mpr ⟨hp, hr⟩, rfl⟩
  by_cases hr : removable maxAge now p.2
  · simp [hiff, hr]
  · simp [hiff, hr]

/-- **C6.**  `cleanup_old_jobs(max_age)` removes a present job iff its
`completed_at` is set and lies strictly more than `max_age` seconds before
`now`; jobs without `completed_at` are never removed; the returned count
plus the surviving map size equals the original size (i.e. it counts the
removed jobs). -/
theorem C6_cleanup {σ : Type} (m : JobMap σ) (maxAge now : ℚ)
    (hnd : (m.map Prod.fst).Nodup) :
    (∀ id j t, lookupJob m id = some j → j.completed_at = some t →
        now - t > maxAge →
        lookupJob (cleanup_old_jobs m maxAge now).2 id = none) ∧
    (∀ id j t, lookupJob m id = some j → j.completed_at = some t →
        ¬(now - t > maxAge) →
        lookupJob (cleanup_old_jobs m maxAge now).2 id = some j) ∧
    (∀ id j, lookupJob m id = some j → j.completed_at = none →
        lookupJob (cleanup_old_jobs m maxAge now).2 id = some j) ∧
    (cleanup_old_jobs m maxAge now).1 +
        (cleanup_old_jobs m maxAge now).2.length = m.length := by
  rw [cleanup_eq_partition m maxAge now hnd]
  refine ⟨?_, ?_, ?_, ?_⟩
  · intro id j t hj hc hgt
    have := alookup_filter_nodup m (fun p => !removable maxAge now p.2) id j
      hnd hj
    unfold lookupJob
    rw [this]
    simp [removable, hc, hgt]
  · intro id j t hj hc hle
    have := alookup_filter_nodup m (fun p => !removable maxAge now p.2) id j
      hnd hj
    unfold lookupJob
    rw [this]
    simp [removable, hc, hle]
  · intro id j hj hc
    have := alookup_filter_nodup m (fun p => !removable maxAge now p.2) id j
      hnd hj
    unfold lookupJob
    rw [this]
    simp [removable, hc]
  · exact filter_length_partition m _

/-- **C6, witness** at the fixture `mAges` with `max_age = 10`, `now = 100`:
the job completed 50s ago is removed, the one completed 5s ago and the
running one survive, and the count accounts exactly for the removal. -/
theorem C6_witness :
    lookupJob (cleanup_old_jobs mAges 10 100).2 "old" = none ∧
    lookupJob (cleanup_old_jobs mAges 10 100).2 "recent" = some jRecent ∧
    lookupJob (cleanup_old_jobs mAges 10 100).2 "run" = some jRun ∧
    (cleanup_old_jobs mAges 10 100).1 +
        (cleanup_old_jobs mAges 10 100).2.length = mAges.length := by
  have h := C6_cleanup mAges 10 100 (by decide)
  exact ⟨h.1 "old" jOld 50 (by rfl) (by rfl) (by norm_num),
         h.2.1 "recent" jRecent 95 (by rfl) (by rfl) (by norm_num),
         h.2.2.1 "run" jRun (by rfl) (by rfl),
         h.2.2.2⟩

/-! ## C2 / C5 — retry executor -/

/-- An operation that fails on every invocation drives the loop through all
`remaining + 1` attempts and re-raises the last error. -/
theorem retryAux_allFail {α : Type} (op : Nat → Except String α)
    (errs : Nat → String) (hop : ∀ i, op i = .error (errs i)) :
    ∀ (remaining attempt : Nat),
      retryAux op attempt remaining =
        (.error (errs (attempt + remaining)), attempt + remaining + 1) := by
  intro remaining
  induction remaining with
  | zero =>
    intro attempt
    unfold retryAux
    rw [hop attempt]
    simp
  | succ r ih =>
    intro attempt
    unfold retryAux
    rw [hop attempt]
    have harith : attempt + 1 + r = attempt + (r + 1) := by omega
    simpa [harith] using ih (attempt + 1)

/-- **C2, counterexample.**  `"boom"` matches none of the throttling
signatures, yet `exponential_backoff_retry` with `max_retries = 2` invokes
the operation 3 times before re-raising — not once, as the claim states:
`is_throttling` (retry.py:51-54) is only consulted for the log message,
never by the retry decision (retry.py:56). -/
theorem C2_counterexample :
    is_throttling "boom" = false ∧
    exponential_backoff_retry opBoom 2 = (.error "boom", 3) ∧
    (exponential_backoff_retry opBoom 2).2 ≠ 1 := by
  refine ⟨by decide, by rfl, by decide⟩

/-- **C2, amended.**  Every error caught by `retry_exceptions` (default:
all of them) is retried regardless of the throttling classification: an
operation that always raises errors carrying no rate-limit/throttling
signature is still invoked `max_retries + 1` times, and only then is the
last error re-raised.  The classification affects only logging. -/
theorem C2_amended {α : Type} (op : Nat → Except String α)
    (errs : Nat → String) (N : Nat)
    (hop : ∀ i, op i = .error (errs i))
    (_hnotthr : ∀ i, is_throttling (errs i) = false) :
    exponential_backoff_retry op N = (.error (errs N), N + 1) := by
  unfold exponential_backoff_retry
  simpa using retryAux_allFail op errs hop N 0

/-- **C2, witness** for the amended statement at the concrete
always-failing non-throttling operation `opBoom` with `max_retries = 2`. -/
theorem C2_witness :
    exponential_backoff_retry opBoom 2 = (.error "boom", 3) := by
  have h : is_throttling "boom" = false := by decide
  exact C2_amended opBoom (fun _ => "boom") 2 (fun _ => rfl) (fun _ => h)

/-- **C5.**  An operation that always raises a retryable (throttling)
error is invoked exactly `N + 1` times by
`exponential_backoff_retry` with `max_retries = N`, and the last error is
re-raised: the `(N+1)`-th failure is terminal (retry.py:43, 56-58). -/
theorem C5_exhaustion {α : Type} (op : Nat → Except String α)
    (errs : Nat → String) (N : Nat)
    (hop : ∀ i, op i = .error (errs i))
    (_hthr : ∀ i, is_throttling (errs i) = true) :
    exponential_backoff_retry op N = (.error (errs N), N + 1) := by
  unfold exponential_backoff_retry
  simpa using retryAux_allFail op errs hop N 0

/-- **C5, witness** at the concrete always-throttled operation with
`max_retries = 2`: 3 invocations, then the error re-raised. -/
theorem C5_witness :
    exponential_backoff_retry opThrottled 2 = (.error "Throttled", 3) := by
  have h : is_throttling "Throttled" = true := by decide
  exact C5_exhaustion opThrottled (fun _ => "Throttled") 2 (fun _ => rfl)
    (fun _ => h)

/-! ## C3 — late subscriber on a closed stream -/

/-- **C3, counterexample.**  After the concrete trace
subscribe/publish/close, a late subscription to the same stream yields the
synthetic "connected" event and then *blocks*: its fresh queue holds no
end-of-stream sentinel (`close_stream` deleted the registry entry, so the
sentinel was never put on this queue), hence the termination flag is
`false` while the claim says the sequence ends. -/
theorem C3_counterexample :
    subscriberView (c3Late.1.queues.getD c3Late.2 []) =
      ([SubEvent.connect], false) := by
  decide

/-- **C3, amended.**  Subscribing to a stream after `close_stream` yields
exactly the initial "connected" event, but the subscription does *not*
end: the late subscriber's queue is freshly created and empty, so the
consuming loop waits for further items (the stream is effectively
reopened).  This holds after closing any stream of any prior state. -/
theorem C3_amended {ε : Type} (s : EventStream ε) (id : String) :
    subscriberView
        ((subscribe (close_stream s id) id).1.queues.getD
          (subscribe (close_stream s id) id).2 []) =
      ([SubEvent.connect], false) := by
  have hq : (subscribe (close_stream s id) id).1.queues =
      (close_stream s id).queues ++ [[]] := rfl
  have hn : (subscribe (close_stream s id) id).2 =
      (close_stream s id).queues.length := rfl
  rw [hq, hn]
  have hget : ((close_stream s id).queues ++ [[]]).getD
      (close_stream s id).queues.length [] = ([] : List (Option ε)) := by
    simp [List.getD]
  rw [hget]
  rfl

/-! ## C4 — redraft-cap transition rule -/

/-- **C4.**  `_should_retry` returns to Draft (incrementing the iteration
counter) exactly when the pipeline has no recorded error, a validation
result exists with `valid = false`, and the iteration counter is below 3;
in every other case it proceeds to Finalize with the state unchanged.  And
a run whose validation fails twice then succeeds reaches Finalize with
`iteration = 2` and no error. -/
theorem C4_redraft :
    (∀ s : AgentState,
      should_retry s =
        if s.error = none ∧
            s.validation_result.map ValidationResult.valid = some false ∧
            s.iteration < 3
        then (.retry, { s with iteration := s.iteration + 1 })
        else (.finalize, s)) ∧
    runPipeline [false, false, true] =
      ({ error := none, validation_result := some ⟨true⟩, iteration := 2 },
        .finalize) := by
  constructor
  · intro s
    rcases s with ⟨err, vr, it⟩
    cases err with
    | some e => simp [should_retry]
    | none =>
      cases vr with
      | none => simp [should_retry]
      | some v =>
        cases v with
        | mk b =>
          cases b with
          | false =>
            by_cases hit : it < 3
            · simp [should_retry, hit]
            · simp [should_retry, hit]
          | true => simp [should_retry]
  · decide

/-! ## C7 — foreign-key referential integrity -/

theorem effPk_ne_empty (d : PKDecl) (p : String) (h : effPk d = some p) :
    p ≠ "" := by
  cases d with
  | strDecl s =>
    by_cases hs : s = ""
    · simp [effPk, hs] at h
    · simp only [effPk, hs, if_false] at h
      simp_all
  | listDecl l =>
    cases l with
    | nil => simp [effPk] at h
    | cons x xs =>
      by_cases hx : x = ""
      · simp [effPk, hx] at h
      · simp only [effPk, hx, if_false] at h
        simp_all
  | noneDecl => simp [effPk] at h

theorem mem_tableColumns_pk (t : Table) (p : String)
    (h : effPk t.primary_key = some p) : p ∈ tableColumns t := by
  unfold tableColumns
  rw [h]
  by_cases hm : p ∈ colNames t.columns
  · simp [hm]
  · simp [hm]

theorem mem_zip_map_self {α β : Type} (f : α → β) :
    ∀ (l : List α) (pr : α × β), pr ∈ l.zip (l.map f) → pr.2 = f pr.1 := by
  intro l
  induction l with
  | nil =>
    intro pr h
    simp at h
  | cons a rest ih =>
    intro pr h
    rw [List.map_cons, List.zip_cons_cons] at h
    rcases List.mem_cons.mp h with h1 | h2
    · subst h1
      rfl
    · exact ih pr h2

theorem tablePks_ne_nil (o : GenOracle) (t : Table) (p : String)
    (h : effPk t.primary_key = some p) : tablePks o t ≠ [] := by
  have hmem : o.pkVal t.name 0 ∈ tablePks o t := by
    unfold tablePks
    refine List.mem_flatMap.mpr ⟨0, ?_, ?_⟩
    · have : 0 < clampRows t.rows :=
        Nat.lt_of_lt_of_le Nat.zero_lt_one (le_max_left _ _)
      simpa [List.mem_range] using this
    · refine List.mem_filterMap.mpr ⟨p, mem_tableColumns_pk t p h, ?_⟩
      rw [h, if_pos rfl]
  exact List.ne_nil_of_mem hmem

/-- **C7.**  For a two-table schema whose second table declares a foreign
key referencing the first table's primary-key column (and whose own
primary key is a different column), generation in declared order records a
nonempty primary-key pool for table 1, and every value generated in the
foreign-key column of table 2 is drawn from that pool. -/
theorem C7_fk_integrity (o : GenOracle) (t1 t2 : Table) (p c : String)
    (hname : t1.name ≠ "")
    (hpk : effPk t1.primary_key = some p)
    (hfk : t2.foreign_keys = [⟨c, t1.name, p⟩])
    (hpk2 : effPk t2.primary_key ≠ some c) :
    (generate_from_schema o [t1, t2]).1 =
      [(generate_table o t1 []).1,
       (generate_table o t2 (generate_table o t1 []).2).1] ∧
    ∃ pks, alookup (generate_table o t1 []).2 t1.name = some pks ∧
      pks ≠ [] ∧
      ∀ row ∈ (generate_table o t2 (generate_table o t1 []).2).1.rows,
        ∀ pr ∈ (generate_table o t2 (generate_table o t1 []).2).1.cols.zip
          row, pr.1 = c → pr.2 ∈ pks := by
  have hppos : p ≠ "" := effPk_ne_empty _ _ hpk
  have hne : tablePks o t1 ≠ [] := tablePks_ne_nil o t1 p hpk
  have hr12 : (generate_table o t1 []).2 =
      ainsert [] t1.name (tablePks o t1) := by
    simp [generate_table, hne]
  have hlook : alookup (generate_table o t1 []).2 t1.name =
      some (tablePks o t1) := by
    rw [hr12]
    exact alookup_ainsert _ _ _
  have hpools : buildPools t2.foreign_keys (generate_table o t1 []).2 =
      [(c, tablePks o t1)] := by
    rw [hfk]
    unfold buildPools
    simp only [List.foldl_cons, List.foldl_nil]
    rw [hlook]
    simp [hname, hppos, ainsert, alookup]
  refine ⟨rfl, tablePks o t1, hlook, hne, ?_⟩
  intro row hrow pr hpr hc
  have hrows : (generate_table o t2 (generate_table o t1 []).2).1.rows =
      tableRows o t2 (buildPools t2.foreign_keys
        (generate_table o t1 []).2) := rfl
  rw [hrows, hpools] at hrow
  unfold tableRows at hrow
  obtain ⟨i, hi, hrowEq⟩ := List.mem_map.mp hrow
  have hcols : (generate_table o t2 (generate_table o t1 []).2).1.cols =
      tableColumns t2 := rfl
  rw [hcols] at hpr
  rw [← hrowEq] at hpr
  have hprv := mem_zip_map_self _ _ pr hpr
  rw [hprv, hc]
  unfold genValue
  rw [if_neg hpk2]
  have hlookc : alookup [(c, tablePks o t1)] c = some (tablePks o t1) := by
    simp [alookup]
  rw [hlookc]
  have hlen : 0 < (tablePks o t1).length := List.length_pos.mpr hne
  have hidx : o.choice t2.name i c % (tablePks o t1).length <
      (tablePks o t1).length := Nat.mod_lt _ hlen
  show (tablePks o t1).getD (o.choice t2.name i c % (tablePks o t1).length)
      "" ∈ tablePks o t1
  rw [List.getD_eq_getElem _ _ hidx]
  exact List.getElem_mem _

/-- **C7, witness** for the concrete two-table schema `t1C`/`t2C` and the
deterministic oracle `oC7`: the recorded pool for `users` is
`["users#pk"]`, and the value generated in the `user_id` column of the
first `orders` row belongs to it. -/
theorem C7_witness :
    alookup (generate_table oC7 t1C []).2 t1C.name = some ["users#pk"] ∧
    ((generate_table oC7 t2C (generate_table oC7 t1C []).2).1.rows.getD 0
        []).getD 1 "" ∈ ["users#pk"] := by
  have h := C7_fk_integrity oC7 t1C t2C "id" "user_id" (by decide)
    (by decide) (by decide) (by decide)
  obtain ⟨hsch, pks, hlook, hne, hmem⟩ := h
  have hlook2 : alookup (generate_table oC7 t1C []).2 t1C.name =
      some ["users#pk"] := by decide
  have hpks : pks = ["users#pk"] :=
    Option.some.inj (hlook.symm.trans hlook2)
  subst hpks
  refine ⟨hlook2, ?_⟩
  exact hmem
    ((generate_table oC7 t2C (generate_table oC7 t1C []).2).1.rows.getD 0 [])
    (by decide)
    ("user_id",
      ((generate_table oC7 t2C (generate_table oC7 t1C []).2).1.rows.getD 0
        []).getD 1 "")
    (by decide) rfl

/-! ## C8 — artifact-reconciliation arithmetic -/

/-- **C8.**  For a job directory reconstructed from artifacts where every
CSV file has at least its header line, the rebuilt view is Succeeded with
progress 1.0, carries the schema descriptor's mtime as both creation and
completion timestamps, and reports per tabular file (stem ≠ "schema") rows
= line count − 1 and columns = comma-separated field count of the stripped
header, with totals summed over those files. -/
theorem C8_reconcile (jobId : String) (files : List CsvFile) (mtime : ℚ)
    (hlines : ∀ f ∈ files, f.lines ≠ []) :
    (reconstructJob jobId files mtime).status = .succeeded ∧
    (reconstructJob jobId files mtime).progress = 1 ∧
    (reconstructJob jobId files mtime).created_at = mtime ∧
    (reconstructJob jobId files mtime).completed_at = some mtime ∧
    (reconstructJob jobId files mtime).summary.tables =
      (files.filter fun f => decide (f.stem ≠ "schema")).map
        (fun f => { name := f.stem, rows := (f.lines.length : Int) - 1,
                    columns := fileColumns f.lines,
                    size_bytes := f.size_bytes }) ∧
    (reconstructJob jobId files mtime).summary.total_rows =
      ((files.filter fun f => decide (f.stem ≠ "schema")).map
        (fun f => (f.lines.length : Int) - 1)).sum ∧
    (reconstructJob jobId files mtime).summary.total_columns =
      ((files.filter fun f => decide (f.stem ≠ "schema")).map
        (fun f => fileColumns f.lines)).sum ∧
    ∀ f ∈ files, ∀ h rest, f.lines = h :: rest →
      fileColumns f.lines = (splitComma (stripChars h.toList)).length := by
  have hrows : ∀ f ∈ files, fileRows f.lines = (f.lines.length : Int) - 1 := by
    intro f hf
    have hne := hlines f hf
    have hlen : 1 ≤ (f.lines.length : Int) := by
      exact_mod_cast List.length_pos.mpr hne
    unfold fileRows
    rw [if_neg (by omega)]
  have htab : (reconstructJob jobId files mtime).summary.tables =
      (files.filter fun f => decide (f.stem ≠ "schema")).map
        (fun f => { name := f.stem, rows := (f.lines.length : Int) - 1,
                    columns := fileColumns f.lines,
                    size_bytes := f.size_bytes }) := by
    unfold reconstructJob
    simp only
    refine List.map_congr_left ?_
    intro f hf
    have hf' : f ∈ files := (List.mem_filter.mp hf).1
    rw [hrows f hf']
  refine ⟨rfl, rfl, rfl, rfl, htab, ?_, ?_, ?_⟩
  · show ((reconstructJob jobId files mtime).summary.tables.map
        TableSummary.rows).sum = _
    rw [htab, List.map_map]
    rfl
  · show ((reconstructJob jobId files mtime).summary.tables.map
        TableSummary.columns).sum = _
    rw [htab, List.map_map]
    rfl
  · intro f hf h rest hhr
    rw [hhr]
    rfl

/-- **C8, witness** at the concrete artifact listing `filesC8` (a `users`
table of 3 lines and the skipped `schema` stem) with mtime 42. -/
theorem C8_witness :
    (reconstructJob "job_x" filesC8 42).status = .succeeded ∧
    (reconstructJob "job_x" filesC8 42).progress = 1 ∧
    (reconstructJob "job_x" filesC8 42).created_at = 42 ∧
    (reconstructJob "job_x" filesC8 42).completed_at = some 42 ∧
    (reconstructJob "job_x" filesC8 42).summary.tables =
      [{ name := "users", rows := 2, columns := 2, size_bytes := 30 }] ∧
    (reconstructJob "job_x" filesC8 42).summary.total_rows = 2 ∧
    (reconstructJob "job_x" filesC8 42).summary.total_columns = 2 := by
  have h := C8_reconcile "job_x" filesC8 42 (by decide)
  exact ⟨h.1, h.2.1, h.2.2.1, h.2.2.2.1,
    h.2.2.2.2.1.trans (by decide),
    h.2.2.2.2.2.1.trans (by decide),
    h.2.2.2.2.2.2.1.trans (by decide)⟩

end DataForge
